import Mathlib

/-!
Verification of the device-side AliYun IoT cloud-sync engine (aliyunIot.py)
and of the positioning subsystem (location.py), as a shallow embedding.

Conventions used throughout:
* Python dicts are embedded as association lists or as functions into `Option`.
* Machine integers of the source are `Nat`/`Int` (no overflow is at play here).
* Python exceptions are embedded as `Except Unit`: `.error ()` marks a raised
  exception, `.ok` the normal return.
* The single shared `osTimer` plus 50 ms polling of `__get_post_res` is
  embedded as a step-indexed poll loop: poll index `i` stands for the moment
  `i * 50` ms after the wait started, and the 10-second one-shot timer is
  observed from poll index `10000 / 50 = 200` on.
-/

namespace AliyunIot

/-- Decimal digit characters of a natural number, most significant first.
Closed form of the accumulator loop `Nat.toDigitsCore` that underlies
`Nat.repr`; used to reason about `str(msg_id)` in `AliYunIot.__get_id`. -/
def decChars (n : Nat) : List Char :=
  if _h : n < 10 then [Nat.digitChar n]
  else decChars (n / 10) ++ [Nat.digitChar (n % 10)]
termination_by n
decreasing_by exact Nat.div_lt_self (by omega) (by omega)

/-- Numeric value of a decimal digit character. -/
def digitVal (c : Char) : Nat := c.toNat - 48

/-- Parse a list of decimal digit characters back into a number; a left
inverse of `decChars`. -/
def charsVal (l : List Char) : Nat :=
  l.foldl (fun a c => 10 * a + digitVal c) 0

/-- Modelled from the spec: the correlation-id allocator (`numiter` from the
module `usr.moudles.common`, which is not part of the given sources) is by
§4.2 a strictly increasing counter; `AliYunIot.__get_id` takes its next value
`n` and renders it with `str()`. -/
def get_id (n : Nat) : String := Nat.repr n

/-- Topic strings owned by an `AliYunIot` instance. The three templated
topics (event post, event post reply, rrpc response) are kept as functions of
the slot value; Python builds them as format strings and fills the slot with
`str.format` at the use sites. -/
structure Topics where
  ica_topic_property_post : String
  ica_topic_property_post_reply : String
  ica_topic_property_set : String
  ica_topic_event_post : String → String
  ica_topic_event_post_reply : String → String
  ota_topic_device_inform : String
  ota_topic_device_upgrade : String
  ota_topic_device_progress : String
  ota_topic_firmware_get : String
  ota_topic_firmware_get_reply : String
  ota_topic_file_download : String
  ota_topic_file_download_reply : String
  rrpc_topic_request : String
  rrpc_topic_response : String → String

/-- Topic construction from `AliYunIot.__init__` (aliyunIot.py lines
176-192). Python `"%s"`-interpolation of the product key and device key is
embedded as string concatenation, in the exact shape of the source lines. -/
def mkTopics (pk dk : String) : Topics where
  ica_topic_property_post := "/sys/" ++ pk ++ "/" ++ dk ++ "/thing/event/property/post"
  ica_topic_property_post_reply := "/sys/" ++ pk ++ "/" ++ dk ++ "/thing/event/property/post_reply"
  ica_topic_property_set := "/sys/" ++ pk ++ "/" ++ dk ++ "/thing/service/property/set"
  ica_topic_event_post := fun evt => "/sys/" ++ pk ++ "/" ++ dk ++ "/thing/event/" ++ evt ++ "/post"
  ica_topic_event_post_reply := fun evt => "/sys/" ++ pk ++ "/" ++ dk ++ "/thing/event/" ++ evt ++ "/post_reply"
  ota_topic_device_inform := "/ota/device/inform/" ++ pk ++ "/" ++ dk
  ota_topic_device_upgrade := "/ota/device/upgrade/" ++ pk ++ "/" ++ dk
  ota_topic_device_progress := "/ota/device/progress/" ++ pk ++ "/" ++ dk
  ota_topic_firmware_get := "/sys/" ++ pk ++ "/" ++ dk ++ "/thing/ota/firmware/get"
  ota_topic_firmware_get_reply := "/sys/" ++ pk ++ "/" ++ dk ++ "/thing/ota/firmware/get_reply"
  ota_topic_file_download := "/sys/" ++ pk ++ "/" ++ dk ++ "/thing/file/download"
  ota_topic_file_download_reply := "/sys/" ++ pk ++ "/" ++ dk ++ "/thing/file/download_reply"
  rrpc_topic_request := "/sys/" ++ pk ++ "/" ++ dk ++ "/rrpc/request/+"
  rrpc_topic_response := fun cid => "/sys/" ++ pk ++ "/" ++ dk ++ "/rrpc/response/" ++ cid

/-- One piece of a wire-contract topic template from §6 of the spec: either a
literal, or one of the substitution slots (product key `P`, device key `D`,
event name, correlation id). -/
inductive TmplPiece where
  | lit (s : String)
  | prodKey
  | devKey
  | evtSlot
  | idSlot

/-- Render a §6 template given the four substitution values. -/
def renderT (P D evt cid : String) : List TmplPiece → String
  | [] => ""
  | TmplPiece.lit s :: r => s ++ renderT P D evt cid r
  | TmplPiece.prodKey :: r => P ++ renderT P D evt cid r
  | TmplPiece.devKey :: r => D ++ renderT P D evt cid r
  | TmplPiece.evtSlot :: r => evt ++ renderT P D evt cid r
  | TmplPiece.idSlot :: r => cid ++ renderT P D evt cid r

/-- Wire templates transcribed from §6 of the spec, one per message class,
in the order of the spec's table. -/
def specTemplates : List (List TmplPiece) :=
  [[TmplPiece.lit "/sys/", TmplPiece.prodKey, TmplPiece.lit "/", TmplPiece.devKey, TmplPiece.lit "/thing/event/property/post"],
   [TmplPiece.lit "/sys/", TmplPiece.prodKey, TmplPiece.lit "/", TmplPiece.devKey, TmplPiece.lit "/thing/event/property/post_reply"],
   [TmplPiece.lit "/sys/", TmplPiece.prodKey, TmplPiece.lit "/", TmplPiece.devKey, TmplPiece.lit "/thing/service/property/set"],
   [TmplPiece.lit "/sys/", TmplPiece.prodKey, TmplPiece.lit "/", TmplPiece.devKey, TmplPiece.lit "/thing/event/", TmplPiece.evtSlot, TmplPiece.lit "/post"],
   [TmplPiece.lit "/sys/", TmplPiece.prodKey, TmplPiece.lit "/", TmplPiece.devKey, TmplPiece.lit "/thing/event/", TmplPiece.evtSlot, TmplPiece.lit "/post_reply"],
   [TmplPiece.lit "/ota/device/inform/", TmplPiece.prodKey, TmplPiece.lit "/", TmplPiece.devKey],
   [TmplPiece.lit "/ota/device/upgrade/", TmplPiece.prodKey, TmplPiece.lit "/", TmplPiece.devKey],
   [TmplPiece.lit "/ota/device/progress/", TmplPiece.prodKey, TmplPiece.lit "/", TmplPiece.devKey],
   [TmplPiece.lit "/sys/", TmplPiece.prodKey, TmplPiece.lit "/", TmplPiece.devKey, TmplPiece.lit "/thing/ota/firmware/get"],
   [TmplPiece.lit "/sys/", TmplPiece.prodKey, TmplPiece.lit "/", TmplPiece.devKey, TmplPiece.lit "/thing/ota/firmware/get_reply"],
   [TmplPiece.lit "/sys/", TmplPiece.prodKey, TmplPiece.lit "/", TmplPiece.devKey, TmplPiece.lit "/thing/file/download"],
   [TmplPiece.lit "/sys/", TmplPiece.prodKey, TmplPiece.lit "/", TmplPiece.devKey, TmplPiece.lit "/thing/file/download_reply"],
   [TmplPiece.lit "/sys/", TmplPiece.prodKey, TmplPiece.lit "/", TmplPiece.devKey, TmplPiece.lit "/rrpc/request/+"],
   [TmplPiece.lit "/sys/", TmplPiece.prodKey, TmplPiece.lit "/", TmplPiece.devKey, TmplPiece.lit "/rrpc/response/", TmplPiece.idSlot]]

/-- The fourteen topic strings an `AliYunIot` instance constructs, in the
order of the spec's §6 table, with the templated ones applied to their slot
value. -/
def topicList (t : Topics) (evt cid : String) : List String :=
  [t.ica_topic_property_post, t.ica_topic_property_post_reply,
   t.ica_topic_property_set, t.ica_topic_event_post evt,
   t.ica_topic_event_post_reply evt, t.ota_topic_device_inform,
   t.ota_topic_device_upgrade, t.ota_topic_device_progress,
   t.ota_topic_firmware_get, t.ota_topic_firmware_get_reply,
   t.ota_topic_file_download, t.ota_topic_file_download_reply,
   t.rrpc_topic_request, t.rrpc_topic_response cid]

/-- State of `AliYunIot.__post_res`: publish result table from message id to
outcome, embedded as a partial map. -/
def put_post_res (tbl : String → Option Bool) (msg_id : String) (res : Bool) :
    String → Option Bool :=
  fun k => if k = msg_id then some res else tbl k

/-- Number of 50 ms polls of `__get_post_res` after which the 10-second
one-shot `osTimer` deadline (started as `1000 * 10` ms) has necessarily
fired: `10000 / 50`. -/
def deadlinePolls : Nat := 200

/-- Poll loop of `AliYunIot.__get_post_res` (lines 230-234): at poll `i`, the
entry `__post_res[msg_id]` holds `entry i` (written concurrently by
`__ali_sub_cb` through `__put_post_res`); `__breack_flag` (set by the
`osTimer` callback `__ali_timer_cb`) is observed from poll `flagAt` on.  The
loop first re-reads the entry, then checks the flag, then sleeps 50 ms. -/
def get_post_res_loop (entry : Nat → Option Bool) (flagAt : Nat) (i : Nat) : Bool :=
  match entry i with
  | some b => b
  | none => if _h : flagAt ≤ i then false else get_post_res_loop entry flagAt (i + 1)
termination_by flagAt - i
decreasing_by omega

/-- `AliYunIot.__get_post_res` (aliyunIot.py lines 218-238): start the
10-second timer, poll the table every 50 ms, force the entry to `False` once
the deadline flag is seen, then `pop` the entry and return it.  The result is
the returned outcome paired with the table after the `pop`. -/
def get_post_res (tbl : String → Option Bool) (msg_id : String)
    (entry : Nat → Option Bool) : Bool × (String → Option Bool) :=
  (get_post_res_loop entry deadlinePolls 0,
   fun k => if k = msg_id then none else tbl k)

/-- Observed value of `__post_res[msg_id]` over poll time when the inbound
callback performs `__put_post_res(msg_id, v)` at poll index `t`
(`resolveAt = some t`), or never (`resolveAt = none`). -/
def entryOf (resolveAt : Option Nat) (v : Bool) : Nat → Option Bool :=
  fun i =>
    match resolveAt with
    | some t => if t ≤ i then some v else none
    | none => none

/-- Envelope parameter block built by `AliYunIot.__data_format`: a property
envelope carries the map `key -> {"value": v, "time": ts}` over the declared
property keys; an event envelope carries the single block
`{"value": {}, "time": ts}` of its event key (the input value of an event key
is discarded by the source, line 380). -/
inductive Params (α : Type) where
  | property (l : List (String × α × Nat))
  | event (time : Nat)

/-- Outbound request envelope `{id, version, sys:{ack:1}, params, method}` as
built by `__data_format` (the constant `sys` block is implicit). -/
structure Envelope (α : Type) where
  id : String
  version : String
  params : Params α
  method : String

/-- Return value of `AliYunIot.__data_format` (lines 368-417). -/
structure DataFormatRes (α : Type) where
  event : List (Envelope α)
  property : List (Envelope α)
  msg_ids : List String
  event_topic : List (String × String)

/-- Keys of the parameter block of an envelope. -/
def paramsKeys {α : Type} : Params α → List String
  | Params.property l => l.map Prod.fst
  | Params.event _ => []

/-- Property partition of `__data_format` (lines 372-377): input entries
whose key is declared as a property, each stamped with the capture timestamp
`ts` (the source computes `utime.mktime(utime.localtime()) * 1000`). -/
def propParams {α : Type} (props : List String) (ts : Nat)
    (data : List (String × α)) : List (String × α × Nat) :=
  data.filterMap (fun kv => if kv.1 ∈ props then some (kv.1, kv.2, ts) else none)

/-- Event partition of `__data_format` (lines 378-382): keys declared as an
event and not as a property (the property test comes first, line 373);
unknown keys are only logged (line 384) and dropped. -/
def eventKeys {α : Type} (props events : List String)
    (data : List (String × α)) : List String :=
  data.filterMap (fun kv =>
    if kv.1 ∈ props then none
    else if kv.1 ∈ events then some kv.1 else none)

/-- Event loop of `__data_format` (lines 400-415): one envelope, one topic
binding and one fresh message id per event key, the allocator counter `n`
threaded left to right.  Returns (envelopes, event_topic entries, ids). -/
def formatEvents {α : Type} (t : Topics) (ts : Nat) :
    Nat → List String → List (Envelope α) × List (String × String) × List String
  | _, [] => ([], [], [])
  | n, k :: ks =>
    let msg_id := get_id n
    let rest := formatEvents t ts (n + 1) ks
    (⟨msg_id, "1.0", Params.event ts, "thing.event." ++ k ++ ".post"⟩ :: rest.1,
     (msg_id, t.ica_topic_event_post k) :: rest.2.1,
     msg_id :: rest.2.2)

/-- `AliYunIot.__data_format` (lines 368-417).  `props`/`events` are the
identifier sets of the registered object model, `ts` the capture timestamp,
`n` the allocator counter.  A property envelope is built only when the
property partition is non-empty (line 386), before the event envelopes, so
it takes the first fresh id. -/
def data_format {α : Type} (props events : List String) (t : Topics)
    (ts n : Nat) (data : List (String × α)) : DataFormatRes α :=
  if (propParams props ts data).isEmpty then
    { event := (formatEvents t ts n (eventKeys props events data)).1,
      property := [],
      msg_ids := (formatEvents (α := α) t ts n (eventKeys props events data)).2.2,
      event_topic := (formatEvents (α := α) t ts n (eventKeys props events data)).2.1 }
  else
    { event := (formatEvents t ts (n + 1) (eventKeys props events data)).1,
      property := [⟨get_id n, "1.0", Params.property (propParams props ts data),
                    "thing.event.property.post"⟩],
      msg_ids := get_id n :: (formatEvents (α := α) t ts (n + 1) (eventKeys props events data)).2.2,
      event_topic := (formatEvents (α := α) t ts (n + 1) (eventKeys props events data)).2.1 }

/-- Publish loop over the property envelopes of `post_data` (lines 497-498);
the transport `pub` may raise, which aborts the loop. -/
def publishAll {α : Type} (pub : Envelope α → Except Unit Unit) :
    List (Envelope α) → Except Unit Unit
  | [] => Except.ok ()
  | e :: es =>
    match pub e with
    | Except.ok _ => publishAll pub es
    | Except.error err => Except.error err

/-- Publish loop over the event envelopes of `post_data` (lines 500-501):
the topic is looked up in `event_topic` by the envelope's id (a missing
binding would be a `KeyError`, hence `.error`), then published. -/
def publishEvents {α : Type} (etop : List (String × String))
    (pub : String → Envelope α → Except Unit Unit) :
    List (Envelope α) → Except Unit Unit
  | [] => Except.ok ()
  | e :: es =>
    match etop.lookup e.id with
    | none => Except.error ()
    | some topic =>
      match pub topic e with
      | Except.error err => Except.error err
      | Except.ok _ => publishEvents etop pub es

/-- Body of the `try` block of `AliYunIot.post_data` (lines 494-503): format
the data (`fmt`, which may raise, e.g. when no object model is registered),
publish every property envelope to the fixed property topic, publish every
event envelope to its per-id topic, then await every generated message id in
order.  Raised exceptions are `.error`. -/
def post_try {α : Type} (fmt : Except Unit (DataFormatRes α))
    (pubP : Envelope α → Except Unit Unit)
    (pubE : String → Envelope α → Except Unit Unit)
    (awaitRes : String → Bool) : Except Unit (List Bool) :=
  match fmt with
  | Except.error e => Except.error e
  | Except.ok pd =>
    match publishAll pubP pd.property with
    | Except.error e => Except.error e
    | Except.ok _ =>
      match publishEvents pd.event_topic pubE pd.event with
      | Except.error e => Except.error e
      | Except.ok _ => Except.ok (pd.msg_ids.map awaitRes)

/-- `AliYunIot.post_data` (lines 473-507).  `sta` is `getAliyunSta()`
(`0` = connected).  The `except` branch only logs and falls through to the
final `return False`; the success case returns
`True if False not in pub_res else False`.  `awaitRes` is the outcome of
`__get_post_res` for a message id (the 10-second await of `get_post_res`). -/
def post_data {α : Type} (sta : Int) (fmt : Except Unit (DataFormatRes α))
    (pubP : Envelope α → Except Unit Unit)
    (pubE : String → Envelope α → Except Unit Unit)
    (awaitRes : String → Bool) : Bool :=
  if sta = 0 then
    match post_try fmt pubP pubE awaitRes with
    | Except.ok pub_res => if false ∈ pub_res then false else true
    | Except.error _ => false
  else false

/-- Payloads of the three OTA publish operations. -/
inductive OtaPayload where
  | inform (id version module : String)
  | firmwareGet (id module : String)
  | fileDownload (id params : String)

/-- Observable behaviour of one OTA publish operation: the allocated message
ids, the (topic, payload) pairs handed to the transport, and the returned
value. -/
structure OtaCall where
  ids : List String
  published : List (String × OtaPayload)
  result : Bool

/-- `AliYunIot.ota_device_inform` (lines 574-598): allocate an id, publish
the inform envelope, and return the transport's publish result directly —
the source never calls `__get_post_res` here.  `awaitRes` (the
`__get_post_res` outcome) is listed as an argument to exhibit that it is not
consulted. -/
def ota_device_inform (t : Topics) (n : Nat) (version module : String)
    (publish_res : Bool) (_awaitRes : String → Bool) : OtaCall :=
  let msg_id := get_id n
  { ids := [msg_id],
    published := [(t.ota_topic_device_inform, OtaPayload.inform msg_id version module)],
    result := publish_res }

/-- `AliYunIot.ota_firmware_get` (lines 636-662): allocate an id, publish the
firmware request, and on a truthy publish result return the awaited
`__get_post_res(msg_id)` outcome, else `False`. -/
def ota_firmware_get (t : Topics) (n : Nat) (module : String)
    (publish_res : Bool) (awaitRes : String → Bool) : OtaCall :=
  let msg_id := get_id n
  { ids := [msg_id],
    published := [(t.ota_topic_firmware_get, OtaPayload.firmwareGet msg_id module)],
    result := if publish_res then awaitRes msg_id else false }

/-- `AliYunIot.ota_file_download` (lines 664-697): allocate an id, publish
the file-download request, and on a truthy publish result return the awaited
`__get_post_res(msg_id)` outcome, else `False`. -/
def ota_file_download (t : Topics) (n : Nat) (params : String)
    (publish_res : Bool) (awaitRes : String → Bool) : OtaCall :=
  let msg_id := get_id n
  { ids := [msg_id],
    published := [(t.ota_topic_file_download, OtaPayload.fileDownload msg_id params)],
    result := if publish_res then awaitRes msg_id else false }

/-- The nested `"data"` object of OTA payloads; fields are `Option` because
the corresponding key may be absent from the inbound JSON. -/
structure OtaDataField where
  module : Option String
  version : Option String

/-- Inbound JSON payload as seen by `AliYunIot.__ali_sub_cb`, after
`ujson.loads`.  Every top-level key the dispatcher may access is `Option`
(`none` = key absent).  `params` embeds `data.get("params", {})`, whose
absence defaults to the empty dict and therefore needs no `Option`.
`dataField` is `some` exactly when `data.get("data")` is present and truthy
(a missing or empty `"data"` both make the source's `if data.get("data"):`
guard fail).  `code` is `Int` : on the reply branches the source compares it
with the literals `200`/`1000` (after `int(...)` on the OTA branches). -/
structure Payload (α : Type) where
  id : Option String
  code : Option Int
  method : Option String
  params : List (String × α)
  dataField : Option OtaDataField

/-- Business events handed to `notifyObservers` by the dispatcher. -/
inductive Notif (α : Type) where
  | objectModel (entries : List (String × α))
  | objectModelOtaStatus (module version : String)
  | otaPlain (d : OtaDataField)
  | otaFileDownload (d : OtaDataField)
  | rrpcRequest (topic : String)

/-- Python `s.endswith(suf)`, over the underlying character lists. -/
def strEndsWith (s suf : String) : Bool := suf.data.isSuffixOf s.data

/-- Python `s.startswith(pre)`, over the underlying character lists. -/
def strStartsWith (s pre : String) : Bool := pre.data.isPrefixOf s.data

/-- Containment of `pat` as a contiguous run of `l`. -/
def listInfixOf (pat : List Char) : List Char → Bool
  | [] => pat.isPrefixOf []
  | c :: t => pat.isPrefixOf (c :: t) || listInfixOf pat t

/-- Python `s.find(pat) != -1`: substring containment test. -/
def strContains (s pat : String) : Bool := listInfixOf pat.data s.data

/-- `AliYunIot.__ali_sub_cb` (aliyunIot.py lines 269-305), the inbound
dispatcher.  Input: the current `__post_res` table, the topic and the decoded
payload.  Output on normal return: the updated table and the list of
`notifyObservers` calls in order; `.error ()` marks an uncaught exception
(the source wraps nothing in `try`, so a `KeyError` from `data["id"]`,
`data["code"]`, `data["method"]` or `data["data"]["..."]` propagates out of
the callback). -/
def ali_sub_cb {α : Type} (tbl : String → Option Bool) (topic : String)
    (d : Payload α) :
    Except Unit ((String → Option Bool) × List (Notif α)) :=
  if strEndsWith topic "/post_reply" then
    match d.id, d.code with
    | some i, some c => Except.ok (put_post_res tbl i (c == 200), [])
    | _, _ => Except.error ()
  else if strEndsWith topic "/property/set" then
    match d.method with
    | none => Except.error ()
    | some m =>
      if m = "thing.service.property.set" then
        Except.ok (tbl, [Notif.objectModel d.params])
      else Except.ok (tbl, [])
  else if strStartsWith topic "/ota/device/upgrade/" then
    match d.id, d.code with
    | some i, some c =>
      let tbl2 := put_post_res tbl i (c == 1000)
      if c == 1000 then
        match d.dataField with
        | some dd =>
          match dd.module, dd.version with
          | some mo, some ve =>
            Except.ok (tbl2, [Notif.objectModelOtaStatus mo ve, Notif.otaPlain dd])
          | _, _ => Except.error ()
        | none => Except.ok (tbl2, [])
      else Except.ok (tbl2, [])
    | _, _ => Except.error ()
  else if strEndsWith topic "/thing/ota/firmware/get_reply" then
    match d.id, d.code with
    | some i, some c =>
      let tbl2 := put_post_res tbl i (c == 200)
      if c == 200 then
        match d.dataField with
        | some dd =>
          match dd.module, dd.version with
          | some mo, some ve =>
            Except.ok (tbl2, [Notif.objectModelOtaStatus mo ve, Notif.otaPlain dd])
          | _, _ => Except.error ()
        | none => Except.ok (tbl2, [])
      else Except.ok (tbl2, [])
    | _, _ => Except.error ()
  else if strEndsWith topic "/thing/file/download_reply" then
    match d.id, d.code with
    | some i, some c =>
      let tbl2 := put_post_res tbl i (c == 200)
      if c == 200 then
        match d.dataField with
        | some dd => Except.ok (tbl2, [Notif.otaFileDownload dd])
        | none => Except.error ()
      else Except.ok (tbl2, [])
    | _, _ => Except.error ()
  else if strContains topic "/rrpc/request/" then
    Except.ok (tbl, [Notif.rrpcRequest topic])
  else Except.ok (tbl, [])

end AliyunIot

namespace LocationMod

/-- Python values returned by the platform locators `cellLocator.getLocation`
and `wifilocator.getwifilocator`: on success a 3-tuple of coordinates, on
failure an error code.  Coordinates are kept opaque as `PyVal` entries. -/
inductive PyVal where
  | int (n : Int)
  | str (s : String)
  | tup (l : List PyVal)

/-- Python `isinstance(v, tuple) and len(v) == 3`. -/
def isTuple3 : PyVal → Bool
  | PyVal.tup l => l.length == 3
  | _ => false

/-- `CellLocator.read` (location.py lines 426-455): `loc_data` is the raw
return of `cellLocator.getLocation(...)`; result is `(res, loc_data)` after
the shape check. -/
def cellLocator_read (loc_data : PyVal) : PyVal × PyVal :=
  if isTuple3 loc_data then (PyVal.int 0, loc_data)
  else (loc_data, PyVal.tup [])

/-- `WiFiLocator.read` (location.py lines 464-484): same logic over the raw
return of `self.wifilocator_obj.getwifilocator()`. -/
def wifiLocator_read (loc_data : PyVal) : PyVal × PyVal :=
  if isTuple3 loc_data then (PyVal.int 0, loc_data)
  else (loc_data, PyVal.tup [])

/-- A reading stored by `Location.read`: the GPS NMEA string from
`GPS.read()[1]`, or the cell/wifi data tuple from the locator's
`read()[1]`. -/
inductive LocReading where
  | gpsData (s : String)
  | cellData (t : PyVal)
  | wifiData (t : PyVal)

/-- `Location.read` (location.py lines 582-617): builds the method-to-reading
dict in GPS(1), cell(2), WiFi(4) order; `__read_gps` yields `gps.read()[1]`
(the NMEA string `gps_data`), `__read_cell`/`__read_wifi` yield
`read()[1]` of the corresponding locator applied to the raw platform value.
The dict is embedded as an association list in insertion order. -/
def location_read (loc_method : Nat) (gps_data : String)
    (cellRaw wifiRaw : PyVal) : List (Nat × LocReading) :=
  (if loc_method &&& 1 ≠ 0 then [(1, LocReading.gpsData gps_data)] else []) ++
  (if loc_method &&& 2 ≠ 0 then [(2, LocReading.cellData (cellLocator_read cellRaw).2)] else []) ++
  (if loc_method &&& 4 ≠ 0 then [(4, LocReading.wifiData (wifiLocator_read wifiRaw).2)] else [])

end LocationMod

namespace AliyunIot

theorem str_append_assoc (a b c : String) : a ++ b ++ c = a ++ (b ++ c) := by
  rcases a with ⟨la⟩; rcases b with ⟨lb⟩; rcases c with ⟨lc⟩
  simp [String.congr_append, List.append_assoc]

theorem str_append_empty (s : String) : s ++ "" = s := by
  rcases s with ⟨l⟩
  simp [String.congr_append]

theorem str_data_append (a b : String) : (a ++ b).data = a.data ++ b.data := by
  rcases a with ⟨la⟩; rcases b with ⟨lb⟩
  simp [String.congr_append]

/-- Injectivity of the event method tag in the event key. -/
theorem method_tag_injective {k k' : String}
    (h : "thing.event." ++ k ++ ".post" = "thing.event." ++ k' ++ ".post") :
    k = k' := by
  have hd := congrArg String.data h
  simp only [str_data_append] at hd
  exact String.ext (List.append_cancel_left (List.append_cancel_right hd))

theorem toDigitsCore_eq_decChars :
    ∀ (f n : Nat) (acc : List Char), n < f →
      Nat.toDigitsCore 10 f n acc = decChars n ++ acc := by
  intro f
  induction f with
  | zero => intro n acc h; omega
  | succ f ih =>
    intro n acc h
    rw [Nat.toDigitsCore]
    by_cases h10 : n / 10 = 0
    · have hn : n < 10 := by omega
      rw [decChars]
      simp [h10, hn, Nat.mod_eq_of_lt hn]
    · have hge : ¬ n < 10 := by
        intro hc
        exact h10 (Nat.div_eq_of_lt hc)
      have hlt : n / 10 < f := by
        have := Nat.div_lt_self (by omega : 0 < n) (by omega : 1 < 10)
        omega
      rw [if_neg h10, ih (n / 10) _ hlt]
      conv_rhs => rw [decChars]
      simp [hge]

theorem digitVal_digitChar (d : Nat) (h : d < 10) :
    digitVal (Nat.digitChar d) = d := by
  interval_cases d <;> rfl

theorem charsVal_append_singleton (l : List Char) (c : Char) :
    charsVal (l ++ [c]) = 10 * charsVal l + digitVal c := by
  simp [charsVal, List.foldl_append]

theorem charsVal_decChars (n : Nat) : charsVal (decChars n) = n := by
  induction n using Nat.strong_induction_on with
  | _ n ih =>
    rw [decChars]
    by_cases h : n < 10
    · simp [h, charsVal, digitVal_digitChar n h]
    · have h0 : 0 < n := by omega
      rw [dif_neg h, charsVal_append_singleton,
        ih (n / 10) (Nat.div_lt_self h0 (by omega)),
        digitVal_digitChar _ (Nat.mod_lt n (by omega))]
      omega

theorem repr_injective : Function.Injective Nat.repr := by
  intro m n h
  have hm : Nat.repr m = (decChars m).asString := by
    rw [Nat.repr, Nat.toDigits, toDigitsCore_eq_decChars (m + 1) m [] (by omega)]
    simp
  have hn : Nat.repr n = (decChars n).asString := by
    rw [Nat.repr, Nat.toDigits, toDigitsCore_eq_decChars (n + 1) n [] (by omega)]
    simp
  rw [hm, hn] at h
  have hd : decChars m = decChars n := List.asString_inj.mp h
  calc m = charsVal (decChars m) := (charsVal_decChars m).symm
    _ = charsVal (decChars n) := by rw [hd]
    _ = n := charsVal_decChars n

theorem get_id_injective : Function.Injective get_id :=
  fun _ _ h => repr_injective h

theorem get_post_res_loop_entry_none (v : Bool) (D i : Nat) :
    get_post_res_loop (entryOf none v) D i = false := by
  generalize hk : D - i = k
  induction k generalizing i with
  | zero =>
    rw [get_post_res_loop]
    simp only [entryOf]
    rw [dif_pos (by omega)]
  | succ k ih =>
    rw [get_post_res_loop]
    simp only [entryOf]
    by_cases h : D ≤ i
    · rw [dif_pos h]
    · rw [dif_neg h]
      exact ih (i + 1) (by omega)

theorem get_post_res_loop_entry_some (t : Nat) (v : Bool) (D i : Nat) :
    get_post_res_loop (entryOf (some t) v) D i =
      if t ≤ max i D then v else false := by
  generalize hk : D - i = k
  induction k generalizing i with
  | zero =>
    rw [get_post_res_loop]
    simp only [entryOf]
    by_cases ht : t ≤ i
    · rw [if_pos ht, if_pos (by omega)]
    · rw [if_neg ht, dif_pos (by omega), if_neg (by omega)]
  | succ k ih =>
    rw [get_post_res_loop]
    simp only [entryOf]
    by_cases ht : t ≤ i
    · rw [if_pos ht, if_pos (by omega)]
    · rw [if_neg ht, dif_neg (by omega), ih (i + 1) (by omega)]
      by_cases htD : t ≤ D
      · rw [if_pos (by omega), if_pos (by omega)]
      · rw [if_neg (by omega), if_neg (by omega)]

/-- C1: `__get_post_res(msg_id)` under the 10-second deadline (200 polls of
50 ms) returns `true` iff the inbound callback stored `true` for `msg_id`
before the deadline fired; it returns `false` when the deadline fires first
or when the stored value is `false`; and on return the entry for `msg_id`
has been popped from the table, all other entries being untouched. -/
theorem get_post_res_spec (tbl : String → Option Bool) (msg_id : String)
    (resolveAt : Option Nat) (v : Bool) :
    ((get_post_res tbl msg_id (entryOf resolveAt v)).1 = true ↔
       (∃ t, resolveAt = some t ∧ t ≤ deadlinePolls ∧ v = true)) ∧
    (∀ t, resolveAt = some t → t ≤ deadlinePolls →
      (get_post_res tbl msg_id (entryOf resolveAt v)).1 = v) ∧
    ((resolveAt = none ∨ ∃ t, resolveAt = some t ∧ deadlinePolls < t) →
      (get_post_res tbl msg_id (entryOf resolveAt v)).1 = false) ∧
    (get_post_res tbl msg_id (entryOf resolveAt v)).2 msg_id = none ∧
    (∀ k, k ≠ msg_id →
      (get_post_res tbl msg_id (entryOf resolveAt v)).2 k = tbl k) := by
  unfold get_post_res
  refine ⟨?_, ?_, ?_, by simp, fun k hk => by simp [hk]⟩
  · cases resolveAt with
    | none => simp [get_post_res_loop_entry_none]
    | some t =>
      rw [get_post_res_loop_entry_some]
      by_cases ht : t ≤ deadlinePolls
      · simp only [Nat.max_eq_right (Nat.zero_le _), if_pos ht]
        constructor
        · intro hv; exact ⟨t, rfl, ht, hv⟩
        · rintro ⟨t', ht', _, hv⟩; cases ht'; exact hv
      · simp only [Nat.max_eq_right (Nat.zero_le _), if_neg ht]
        constructor
        · intro hf; cases hf
        · rintro ⟨t', ht', htle, _⟩; cases ht'; exact absurd htle ht
  · rintro t rfl ht
    rw [get_post_res_loop_entry_some]
    rw [if_pos (by simp [Nat.max_eq_right (Nat.zero_le _)]; omega)]
  · rintro (rfl | ⟨t, rfl, ht⟩)
    · simp [get_post_res_loop_entry_none]
    · rw [get_post_res_loop_entry_some,
        if_neg (by simp [Nat.max_eq_right (Nat.zero_le _)]; omega)]

/-- Witness for C1 at a concrete input: resolution to `true` at poll 3 is
within the 200-poll deadline, so the await returns `true` and removes the
entry. -/
theorem get_post_res_spec_witness :
    (get_post_res (fun _ => none) "5" (entryOf (some 3) true)).1 = true ∧
    (get_post_res (fun _ => none) "5" (entryOf (some 3) true)).2 "5" = none := by
  have h := get_post_res_spec (fun _ => none) "5" (some 3) true
  exact ⟨h.2.1 3 rfl (by decide), h.2.2.2.1⟩

/-- C8: for every product key and device key (and every value of the
templated slots), the fourteen topic strings built by `AliYunIot.__init__`
are byte-identical to the corresponding §6 wire templates. -/
theorem topics_match_wire_templates (P D evt cid : String) :
    topicList (mkTopics P D) evt cid = specTemplates.map (renderT P D evt cid) := by
  simp [topicList, mkTopics, specTemplates, renderT, str_append_assoc,
    str_append_empty]

/-- C4 counterexample: `ota_device_inform` does not return the awaited
`__get_post_res` outcome — with a successful publish and an await that
resolves to `false`, it still returns `true`.  (The source returns
`publish_res` directly and never awaits, aliyunIot.py line 598.) -/
theorem ota_device_inform_no_await_cex :
    ¬ (∀ (awaitRes : String → Bool),
        (ota_device_inform (mkTopics "p" "d") 0 "v" "m" true awaitRes).result =
          awaitRes (get_id 0)) := by
  intro h
  have hf := h (fun _ => false)
  simp [ota_device_inform] at hf

/-- C4 (amended): `ota_firmware_get` and `ota_file_download` each allocate
exactly one correlation id, publish exactly one envelope, and return the
awaited `__get_post_res` outcome for that id when the publish succeeded
(`false` when it failed); `ota_device_inform` also allocates exactly one id
and publishes exactly one envelope, but returns the transport's publish
result directly, without awaiting. -/
theorem ota_calls_spec (t : Topics) (n : Nat) (version module params : String)
    (publish_res : Bool) (awaitRes : String → Bool) :
    ((ota_device_inform t n version module publish_res awaitRes).ids = [get_id n] ∧
     (ota_device_inform t n version module publish_res awaitRes).published =
       [(t.ota_topic_device_inform, OtaPayload.inform (get_id n) version module)] ∧
     (ota_device_inform t n version module publish_res awaitRes).result = publish_res) ∧
    ((ota_firmware_get t n module publish_res awaitRes).ids = [get_id n] ∧
     (ota_firmware_get t n module publish_res awaitRes).published =
       [(t.ota_topic_firmware_get, OtaPayload.firmwareGet (get_id n) module)] ∧
     (ota_firmware_get t n module publish_res awaitRes).result =
       (if publish_res then awaitRes (get_id n) else false)) ∧
    ((ota_file_download t n params publish_res awaitRes).ids = [get_id n] ∧
     (ota_file_download t n params publish_res awaitRes).published =
       [(t.ota_topic_file_download, OtaPayload.fileDownload (get_id n) params)] ∧
     (ota_file_download t n params publish_res awaitRes).result =
       (if publish_res then awaitRes (get_id n) else false)) :=
  ⟨⟨rfl, rfl, rfl⟩, ⟨rfl, rfl, rfl⟩, ⟨rfl, rfl, rfl⟩⟩

theorem formatEvents_map_method {α : Type} (t : Topics) (ts : Nat) :
    ∀ (n : Nat) (ks : List String),
      ((formatEvents (α := α) t ts n ks).1.map Envelope.method) =
        ks.map (fun k => "thing.event." ++ k ++ ".post") := by
  intro n ks
  induction ks generalizing n with
  | nil => rfl
  | cons k ks ih => simp [formatEvents, ih]

theorem formatEvents_ids {α : Type} (t : Topics) (ts : Nat) :
    ∀ (n : Nat) (ks : List String),
      (formatEvents (α := α) t ts n ks).2.2 =
        (List.range ks.length).map (fun i => get_id (n + i)) := by
  intro n ks
  induction ks generalizing n with
  | nil => rfl
  | cons k ks ih =>
    simp only [formatEvents, ih (n + 1), List.length_cons,
      List.range_succ_eq_map, List.map_cons, List.map_map, Nat.add_zero]
    congr 1
    apply List.map_congr_left
    intro i _
    have hni : n + 1 + i = n + (i + 1) := by omega
    simp [Function.comp, hni]

theorem formatEvents_ids_nodup {α : Type} (t : Topics) (ts n : Nat)
    (ks : List String) : ((formatEvents (α := α) t ts n ks).2.2).Nodup := by
  rw [formatEvents_ids]
  exact List.Nodup.map
    (fun a b h => by have := get_id_injective h; omega)
    (List.nodup_range _)

theorem get_id_not_mem_formatEvents_ids {α : Type} (t : Topics) (ts n : Nat)
    (ks : List String) :
    get_id n ∉ (formatEvents (α := α) t ts (n + 1) ks).2.2 := by
  rw [formatEvents_ids]
  simp only [List.mem_map, List.mem_range, not_exists]
  rintro i ⟨_, h⟩
  have := get_id_injective h
  omega

theorem mem_formatEvents_method {α : Type} (t : Topics) (ts : Nat) :
    ∀ (n : Nat) (ks : List String) (e : Envelope α),
      e ∈ (formatEvents t ts n ks).1 →
        ∃ k, k ∈ ks ∧ e.method = "thing.event." ++ k ++ ".post" := by
  intro n ks
  induction ks generalizing n with
  | nil => intro e he; simp [formatEvents] at he
  | cons k ks ih =>
    intro e he
    simp only [formatEvents, List.mem_cons] at he
    rcases he with rfl | he
    · exact ⟨k, List.mem_cons_self k ks, rfl⟩
    · obtain ⟨k', hk', hm⟩ := ih (n + 1) e he
      exact ⟨k', List.mem_cons_of_mem k hk', hm⟩

theorem eventKeys_eq_filter {α : Type} (props events : List String)
    (data : List (String × α)) :
    eventKeys props events data =
      (data.map Prod.fst).filter (fun k => decide (k ∉ props ∧ k ∈ events)) := by
  induction data with
  | nil => rfl
  | cons kv rest ih =>
    simp only [eventKeys] at ih ⊢
    simp only [List.filterMap_cons, List.map_cons, List.filter_cons]
    by_cases h1 : kv.1 ∈ props
    · simp [h1, ih]
    · by_cases h2 : kv.1 ∈ events
      · simp [h1, h2, ih]
      · simp [h1, h2, ih]

theorem eventKeys_eq_filter_events {α : Type} (props events : List String)
    (data : List (String × α)) (hdisj : ∀ k, k ∈ props → k ∉ events) :
    eventKeys props events data =
      (data.map Prod.fst).filter (fun k => decide (k ∈ events)) := by
  rw [eventKeys_eq_filter]
  apply List.filter_congr
  intro k _
  by_cases he : k ∈ events
  · have hp : k ∉ props := fun hp => hdisj k hp he
    simp [he, hp]
  · simp [he]

theorem propParams_keys {α : Type} (props : List String) (ts : Nat)
    (data : List (String × α)) :
    (propParams props ts data).map Prod.fst =
      (data.map Prod.fst).filter (fun k => decide (k ∈ props)) := by
  induction data with
  | nil => rfl
  | cons kv rest ih =>
    simp only [propParams] at ih ⊢
    simp only [List.filterMap_cons, List.map_cons, List.filter_cons]
    by_cases h1 : kv.1 ∈ props
    · simp [h1, ih]
    · simp [h1, ih]

theorem propParams_eq_nil_iff {α : Type} (props : List String) (ts : Nat)
    (data : List (String × α)) :
    propParams props ts data = [] ↔ ∀ kv ∈ data, kv.1 ∉ props := by
  rw [propParams, List.filterMap_eq_nil_iff]
  constructor
  · intro h kv hkv hp
    have := h kv hkv
    simp [hp] at this
  · intro h kv hkv
    simp [h kv hkv]

/-- C3: `__data_format` merges all input keys declared as properties into
exactly one envelope with one fresh id and method
`"thing.event.property.post"` (and no property envelope when there is no
such key); it builds exactly one envelope, in input order, with method
`"thing.event.<evt>.post"` per input key declared as an event; all generated
ids are pairwise distinct (fresh); and no envelope mentions a key that is
absent from the object model. -/
theorem data_format_spec {α : Type} (props events : List String) (t : Topics)
    (ts n : Nat) (data : List (String × α))
    (hdisj : ∀ k, k ∈ props → k ∉ events) :
    ((∀ kv ∈ data, kv.1 ∉ props) →
      (data_format props events t ts n data).property = []) ∧
    ((∃ kv ∈ data, kv.1 ∈ props) →
      ∃ e, (data_format props events t ts n data).property = [e] ∧
        e.method = "thing.event.property.post" ∧ e.id = get_id n ∧
        paramsKeys e.params =
          (data.map Prod.fst).filter (fun k => decide (k ∈ props))) ∧
    ((data_format props events t ts n data).event.map Envelope.method =
      ((data.map Prod.fst).filter (fun k => decide (k ∈ events))).map
        (fun k => "thing.event." ++ k ++ ".post")) ∧
    (data_format props events t ts n data).msg_ids.Nodup ∧
    ((data.map Prod.fst).Nodup →
      ((data_format props events t ts n data).event.map Envelope.method).Nodup) ∧
    (∀ e ∈ (data_format props events t ts n data).property,
      ∀ k ∈ paramsKeys e.params, k ∈ props) ∧
    (∀ e ∈ (data_format props events t ts n data).event,
      ∃ k, k ∈ events ∧ k ∈ data.map Prod.fst ∧
        e.method = "thing.event." ++ k ++ ".post") := by
  have hfilter := eventKeys_eq_filter_events props events data hdisj
  refine ⟨?_, ?_, ?_, ?_, ?_, ?_, ?_⟩
  · intro h
    have hnil : propParams props ts data = [] :=
      (propParams_eq_nil_iff props ts data).mpr h
    simp [data_format, hnil]
  · rintro ⟨kv, hkv, hp⟩
    have hne : (propParams props ts data).isEmpty = false := by
      rw [List.isEmpty_eq_false_iff_exists_mem]
      refine ⟨(kv.1, kv.2, ts), ?_⟩
      rw [propParams, List.mem_filterMap]
      exact ⟨kv, hkv, by simp [hp]⟩
    refine ⟨⟨get_id n, "1.0", Params.property (propParams props ts data),
      "thing.event.property.post"⟩, ?_, rfl, rfl, ?_⟩
    · simp [data_format, hne]
    · simp only [paramsKeys]
      exact propParams_keys props ts data
  · by_cases hemp : (propParams props ts data).isEmpty <;>
      simp [data_format, hemp, formatEvents_map_method, hfilter]
  · by_cases hemp : (propParams props ts data).isEmpty
    · simp only [data_format, hemp, if_true]
      exact formatEvents_ids_nodup t ts n _
    · simp only [data_format, hemp, if_false, Bool.false_eq_true,
        List.nodup_cons]
      exact ⟨get_id_not_mem_formatEvents_ids t ts n _,
        formatEvents_ids_nodup t ts (n + 1) _⟩
  · intro hnd
    have hmeth : ∀ m : Nat,
        (((formatEvents (α := α) t ts m (eventKeys props events data)).1.map
            Envelope.method)).Nodup := by
      intro m
      rw [formatEvents_map_method, hfilter]
      exact List.Nodup.map (fun a b h => method_tag_injective h)
        (List.Nodup.filter _ hnd)
    by_cases hemp : (propParams props ts data).isEmpty <;>
      simp [data_format, hemp, hmeth]
  · intro e he k hk
    by_cases hemp : (propParams props ts data).isEmpty
    · simp [data_format, hemp] at he
    · simp only [data_format, hemp, if_false, Bool.false_eq_true,
        List.mem_singleton] at he
      subst he
      simp only [paramsKeys, propParams_keys] at hk
      rw [List.mem_filter] at hk
      exact of_decide_eq_true hk.2
  · intro e he
    have hin : ∀ m : Nat,
        e ∈ (formatEvents (α := α) t ts m (eventKeys props events data)).1 →
        ∃ k, k ∈ events ∧ k ∈ data.map Prod.fst ∧
          e.method = "thing.event." ++ k ++ ".post" := by
      intro m hm
      obtain ⟨k, hk, hmeth⟩ := mem_formatEvents_method t ts m _ e hm
      rw [hfilter, List.mem_filter] at hk
      exact ⟨k, of_decide_eq_true hk.2, hk.1, hmeth⟩
    by_cases hemp : (propParams props ts data).isEmpty
    · simp only [data_format, hemp, if_true] at he
      exact hin n he
    · simp only [data_format, hemp, if_false, Bool.false_eq_true] at he
      exact hin (n + 1) he

/-- Witness for C3 at a concrete input: one known property key, one known
event key, one unknown key. -/
theorem data_format_spec_witness :
    (data_format ["energy"] ["sos"] (mkTopics "p" "d") 0 0
        [("energy", (5 : Nat)), ("sos", 7), ("unknown", 9)]).msg_ids.Nodup ∧
    ((data_format ["energy"] ["sos"] (mkTopics "p" "d") 0 0
        [("energy", (5 : Nat)), ("sos", 7), ("unknown", 9)]).event.map
          Envelope.method = ["thing.event.sos.post"]) := by
  have h := data_format_spec ["energy"] ["sos"] (mkTopics "p" "d") 0 0
    [("energy", (5 : Nat)), ("sos", 7), ("unknown", 9)]
    (by
      intro k hk
      simp only [List.mem_singleton] at hk
      subst hk
      decide)
  refine ⟨h.2.2.2.1, ?_⟩
  rw [h.2.2.1]
  decide

/-- C5 counterexample: `__put_post_res` on an id with no pending entry is not
a no-op — on the empty table it creates the entry `"7" -> True`. -/
theorem put_post_res_unknown_id_cex :
    ¬ (put_post_res (fun _ => none) "7" true = (fun _ => (none : Option Bool))) := by
  intro h
  have h7 := congrFun h "7"
  simp [put_post_res] at h7

/-- C5 (amended): `__put_post_res(msg_id, res)` never raises and always
stores `res` under `msg_id` — creating the entry when none is pending —
while every other key of the table is unchanged. -/
theorem put_post_res_spec (tbl : String → Option Bool) (msg_id : String)
    (res : Bool) :
    put_post_res tbl msg_id res msg_id = some res ∧
    (∀ k, k ≠ msg_id → put_post_res tbl msg_id res k = tbl k) := by
  exact ⟨by simp [put_post_res], fun k hk => by simp [put_post_res, hk]⟩

/-- Witness for C5 (amended) at a concrete input. -/
theorem put_post_res_spec_witness :
    put_post_res (fun _ => none) "7" true "7" = some true ∧
    put_post_res (fun _ => none) "7" true "8" = none := by
  have h := put_post_res_spec (fun _ => none) "7" true
  exact ⟨h.1, h.2 "8" (by decide)⟩

theorem post_try_ok {α : Type} (fmt : Except Unit (DataFormatRes α))
    (pubP : Envelope α → Except Unit Unit)
    (pubE : String → Envelope α → Except Unit Unit)
    (awaitRes : String → Bool) (res : List Bool)
    (h : post_try fmt pubP pubE awaitRes = Except.ok res) :
    ∃ pd, fmt = Except.ok pd ∧ res = pd.msg_ids.map awaitRes := by
  cases fmt with
  | error e => simp [post_try] at h
  | ok pd =>
    simp only [post_try] at h
    cases hp : publishAll pubP pd.property with
    | error e => rw [hp] at h; cases h
    | ok _ =>
      rw [hp] at h
      cases he : publishEvents pd.event_topic pubE pd.event with
      | error e => rw [he] at h; cases h
      | ok _ =>
        rw [he] at h
        cases h
        exact ⟨pd, rfl, rfl⟩

/-- C2: `post_data` is a total Boolean function of its inputs (exceptions
never propagate: every raised formatting or transport exception is caught
and collapses to `False` after local logging); when connected and no
exception occurs it returns `true` iff every awaited correlation id resolved
to success; and without an active connection it returns `False`. -/
theorem post_data_spec {α : Type} (sta : Int)
    (fmt : Except Unit (DataFormatRes α))
    (pubP : Envelope α → Except Unit Unit)
    (pubE : String → Envelope α → Except Unit Unit)
    (awaitRes : String → Bool) :
    (∀ e, post_try fmt pubP pubE awaitRes = Except.error e →
      post_data sta fmt pubP pubE awaitRes = false) ∧
    (∀ pd res, fmt = Except.ok pd →
      post_try fmt pubP pubE awaitRes = Except.ok res → sta = 0 →
      (post_data sta fmt pubP pubE awaitRes = true ↔
        ∀ m ∈ pd.msg_ids, awaitRes m = true)) ∧
    (sta ≠ 0 → post_data sta fmt pubP pubE awaitRes = false) := by
  refine ⟨?_, ?_, ?_⟩
  · intro e he
    unfold post_data
    rw [he]
    simp
  · intro pd res hfmt htry hsta
    subst hsta
    obtain ⟨pd', hfmt', hres⟩ := post_try_ok fmt pubP pubE awaitRes res htry
    rw [hfmt] at hfmt'
    cases hfmt'
    unfold post_data
    rw [htry]
    simp only [if_pos rfl, hres]
    by_cases hmem : false ∈ pd.msg_ids.map awaitRes
    · simp only [hmem, if_true]
      constructor
      · intro h; cases h
      · intro hall
        rw [List.mem_map] at hmem
        obtain ⟨m, hm, hfm⟩ := hmem
        rw [hall m hm] at hfm
        cases hfm
    · simp only [hmem, if_false]
      refine ⟨fun _ m hm => ?_, fun _ => rfl⟩
      cases hfm : awaitRes m with
      | true => rfl
      | false =>
        rw [List.mem_map] at hmem
        exact absurd ⟨m, hm, hfm⟩ hmem
  · intro hsta
    unfold post_data
    rw [if_neg hsta]

/-- Witness for C2 at a concrete input: connected, no exception anywhere,
one message id whose await succeeds, so the publish reports `true`. -/
theorem post_data_spec_witness :
    post_data (α := Nat) 0 (Except.ok ⟨[], [], ["1"], []⟩)
      (fun _ => Except.ok ()) (fun _ _ => Except.ok ())
      (fun _ => true) = true := by
  have h := post_data_spec (α := Nat) 0 (Except.ok ⟨[], [], ["1"], []⟩)
    (fun _ => Except.ok ()) (fun _ _ => Except.ok ()) (fun _ => true)
  exact (h.2.1 ⟨[], [], ["1"], []⟩ [true] rfl rfl rfl).mpr (by simp)

/-- C6: an inbound message on a topic ending `"/post_reply"` whose payload
carries an `id` and a `code` resolves the pending entry for that id: the
table is updated at exactly that id, to `true` exactly when the code is
`200` and to `false` for any other code, and no observer is notified. -/
theorem ali_sub_cb_post_reply_spec {α : Type} (tbl : String → Option Bool)
    (topic : String) (d : Payload α) (i : String) (c : Int)
    (ht : strEndsWith topic "/post_reply" = true)
    (hi : d.id = some i) (hc : d.code = some c) :
    ali_sub_cb tbl topic d = Except.ok (put_post_res tbl i (c == 200), []) ∧
    (put_post_res tbl i (c == 200) i = some true ↔ c = 200) ∧
    (c ≠ 200 → put_post_res tbl i (c == 200) i = some false) := by
  refine ⟨?_, ?_, ?_⟩
  · unfold ali_sub_cb
    rw [if_pos ht, hi, hc]
  · simp [put_post_res]
  · intro hne
    simp [put_post_res, hne]

/-- Witness for C6 at a concrete input: the payload
`{"id": "7", "code": 200}` on the property post-reply topic resolves the
pending id `"7"` to `true`. -/
theorem ali_sub_cb_post_reply_spec_witness :
    ali_sub_cb (α := Nat) (fun _ => none)
        "/sys/p/d/thing/event/property/post_reply"
        ⟨some "7", some 200, none, [], none⟩ =
      Except.ok (put_post_res (fun _ => none) "7" ((200 : Int) == 200), []) ∧
    put_post_res (fun _ => none) "7" ((200 : Int) == 200) "7" = some true := by
  have h := ali_sub_cb_post_reply_spec (α := Nat) (fun _ => none)
    "/sys/p/d/thing/event/property/post_reply"
    ⟨some "7", some 200, none, [], none⟩ "7" 200 (by decide) rfl rfl
  exact ⟨h.1, h.2.1.mpr rfl⟩

/-- C7 (code divergence): `__ali_sub_cb` does not guard key access — on a
`"/post_reply"` topic with a payload that lacks the `"id"` key, the lookup
`data["id"]` raises a `KeyError` out of the callback (modelled as
`Except.error`), instead of failing locally and returning. -/
theorem ali_sub_cb_missing_key_raises :
    ali_sub_cb (α := Nat) (fun _ => none)
      "/sys/p/d/thing/event/property/post_reply"
      ⟨none, none, none, [], none⟩ = Except.error () := by
  unfold ali_sub_cb
  rw [if_pos (by decide)]

end AliyunIot

namespace LocationMod

/-- C9: `Location.read(loc_method)` returns a mapping whose key set is
exactly the bits set in the mask among GPS(1), cell(2), WiFi(4), each key
bound to the reading of the corresponding locator: the GPS NMEA string, and
the cell/WiFi data component of the locator's `read()`. -/
theorem location_read_spec (mask : Nat) (g : String) (c w : PyVal) :
    (∀ k, k ∈ (location_read mask g c w).map Prod.fst ↔
      ((k = 1 ∧ mask &&& 1 ≠ 0) ∨ (k = 2 ∧ mask &&& 2 ≠ 0) ∨
       (k = 4 ∧ mask &&& 4 ≠ 0))) ∧
    (location_read mask g c w).lookup 1 =
      (if mask &&& 1 ≠ 0 then some (LocReading.gpsData g) else none) ∧
    (location_read mask g c w).lookup 2 =
      (if mask &&& 2 ≠ 0 then some (LocReading.cellData (cellLocator_read c).2) else none) ∧
    (location_read mask g c w).lookup 4 =
      (if mask &&& 4 ≠ 0 then some (LocReading.wifiData (wifiLocator_read w).2) else none) := by
  rcases Decidable.em (mask &&& 1 ≠ 0) with h1 | h1 <;>
    rcases Decidable.em (mask &&& 2 ≠ 0) with h2 | h2 <;>
      rcases Decidable.em (mask &&& 4 ≠ 0) with h4 | h4
  · simp only [location_read, if_pos h1, if_pos h2, if_pos h4]
    refine ⟨fun k => ?_, rfl, rfl, rfl⟩
    simp only [List.map_append, List.map_cons, List.map_nil, List.mem_append,
      List.mem_cons, List.not_mem_nil, List.mem_singleton, or_false, false_or]
    tauto
  · simp only [location_read, if_pos h1, if_pos h2, if_neg h4]
    refine ⟨fun k => ?_, rfl, rfl, rfl⟩
    simp only [List.map_append, List.map_cons, List.map_nil, List.mem_append,
      List.mem_cons, List.not_mem_nil, List.mem_singleton, or_false, false_or]
    tauto
  · simp only [location_read, if_pos h1, if_neg h2, if_pos h4]
    refine ⟨fun k => ?_, rfl, rfl, rfl⟩
    simp only [List.map_append, List.map_cons, List.map_nil, List.mem_append,
      List.mem_cons, List.not_mem_nil, List.mem_singleton, or_false, false_or,
      List.nil_append]
    tauto
  · simp only [location_read, if_pos h1, if_neg h2, if_neg h4]
    refine ⟨fun k => ?_, rfl, rfl, rfl⟩
    simp only [List.map_append, List.map_cons, List.map_nil, List.mem_append,
      List.mem_cons, List.not_mem_nil, List.mem_singleton, or_false, false_or,
      List.nil_append, List.append_nil]
    tauto
  · simp only [location_read, if_neg h1, if_pos h2, if_pos h4]
    refine ⟨fun k => ?_, rfl, rfl, rfl⟩
    simp only [List.map_append, List.map_cons, List.map_nil, List.mem_append,
      List.mem_cons, List.not_mem_nil, List.mem_singleton, or_false, false_or,
      List.nil_append]
    tauto
  · simp only [location_read, if_neg h1, if_pos h2, if_neg h4]
    refine ⟨fun k => ?_, rfl, rfl, rfl⟩
    simp only [List.map_append, List.map_cons, List.map_nil, List.mem_append,
      List.mem_cons, List.not_mem_nil, List.mem_singleton, or_false, false_or,
      List.nil_append, List.append_nil]
    tauto
  · simp only [location_read, if_neg h1, if_neg h2, if_pos h4]
    refine ⟨fun k => ?_, rfl, rfl, rfl⟩
    simp only [List.map_append, List.map_cons, List.map_nil, List.mem_append,
      List.mem_cons, List.not_mem_nil, List.mem_singleton, or_false, false_or,
      List.nil_append]
    tauto
  · simp only [location_read, if_neg h1, if_neg h2, if_neg h4]
    refine ⟨fun k => ?_, rfl, rfl, rfl⟩
    simp only [List.map_append, List.map_cons, List.map_nil, List.mem_append,
      List.mem_cons, List.not_mem_nil, List.mem_singleton, or_false, false_or,
      List.nil_append, List.append_nil]
    tauto

/-- C10: `CellLocator.read` and `WiFiLocator.read` report result code `0`
exactly when the platform locator returned a 3-element tuple (which is then
the returned location data); in every other case the raw platform value is
passed through as the result code and the location data is the empty tuple.
The hypothesis excludes the raw value `0`, which the platform locators never
return (their documented error codes are negative, location.py lines
430-437 and 468-472). -/
theorem locator_read_spec (v : PyVal) (hv : v ≠ PyVal.int 0) :
    ((cellLocator_read v).1 = PyVal.int 0 ↔ isTuple3 v = true) ∧
    (isTuple3 v = true → cellLocator_read v = (PyVal.int 0, v)) ∧
    (isTuple3 v = false → cellLocator_read v = (v, PyVal.tup [])) ∧
    ((wifiLocator_read v).1 = PyVal.int 0 ↔ isTuple3 v = true) ∧
    (isTuple3 v = true → wifiLocator_read v = (PyVal.int 0, v)) ∧
    (isTuple3 v = false → wifiLocator_read v = (v, PyVal.tup [])) := by
  unfold cellLocator_read wifiLocator_read
  by_cases h : isTuple3 v <;> simp [h, hv]

/-- Witness for C10 at a concrete input: a 3-element tuple yields result
code `0` with the tuple as data, for both locators. -/
theorem locator_read_spec_witness :
    cellLocator_read (PyVal.tup [PyVal.int 1, PyVal.int 2, PyVal.int 3]) =
      (PyVal.int 0, PyVal.tup [PyVal.int 1, PyVal.int 2, PyVal.int 3]) ∧
    wifiLocator_read (PyVal.tup [PyVal.int 1, PyVal.int 2, PyVal.int 3]) =
      (PyVal.int 0, PyVal.tup [PyVal.int 1, PyVal.int 2, PyVal.int 3]) := by
  have h := locator_read_spec (PyVal.tup [PyVal.int 1, PyVal.int 2, PyVal.int 3])
    (fun hc => PyVal.noConfusion hc)
  exact ⟨h.2.1 rfl, h.2.2.2.2.1 rfl⟩

end LocationMod
